import Mathlib

/-!
Shallow embedding of the process lifecycle manager of `aigonviewer`
(`src/process_manager.py` together with the dispatch code in `src/cli.py`).

The instance directory is modelled as a list of record files, each carrying
the `<port>` portion of its `fileserver.<port>.pid` file name (`key`) and its
text content (`content`).  Operating-system behaviour that the Python code
observes (bind probes, signal outcomes, liveness probes, spawn results) is
supplied through explicit environment records of oracles, so every code path
of `launch_server`, `status_server` and `kill_server` becomes a total
computable function of the directory state and the environment.

Python's `int(...)` parsing (ASCII subset), `str.strip()` (ASCII whitespace),
`str.split('.')` and `str(n)` decimal formatting are modelled explicitly,
since the record file format and the staleness rules depend on them.
-/

namespace AigonViewer

/-! ### Python string primitives -/

/-- Characters treated as whitespace by Python's `str.strip()` (ASCII subset). -/
def isPyWs (c : Char) : Bool :=
  c = ' ' || c = '\t' || c = '\n' || c = '\r' || c = '\x0b' || c = '\x0c'

/-- Model of Python `str.strip()`: remove leading and trailing whitespace. -/
def pyStrip (s : String) : String :=
  ⟨((s.data.dropWhile isPyWs).reverse.dropWhile isPyWs).reverse⟩

/-- Numeric value of a list of decimal digit characters, most significant first. -/
def digitsVal (l : List Char) : Nat :=
  l.foldl (fun a c => 10 * a + (c.toNat - 48)) 0

/-- Continuation of Python's integer-literal digit part after the first digit:
accepts `(["_"] digit)*` and returns the digits with underscores removed. -/
def digitsRest : List Char → Option (List Char)
  | [] => some []
  | [c] => if c = '_' then none else if c.isDigit then some [c] else none
  | c :: c2 :: rest =>
    if c = '_' then
      if c2.isDigit then (digitsRest rest).map (c2 :: ·) else none
    else
      if c.isDigit then (digitsRest (c2 :: rest)).map (c :: ·) else none

/-- Python's integer-literal digit part: `digit (["_"] digit)*`. -/
def parseDigitPart : List Char → Option (List Char)
  | [] => none
  | c :: rest => if c.isDigit then (digitsRest rest).map (c :: ·) else none

/-- Main body of Python `int(s)` on the character list of a string:
an optional sign followed by the digit part. -/
def pyParseIntList : List Char → Option Int
  | [] => none
  | c :: rest =>
    if c = '+' then (parseDigitPart rest).map (fun l => (digitsVal l : Int))
    else if c = '-' then (parseDigitPart rest).map (fun l => -(digitsVal l : Int))
    else (parseDigitPart (c :: rest)).map (fun l => (digitsVal l : Int))

/-- Model of Python `int(s)` on an already-stripped string (ASCII subset):
an optional sign followed by a digit part with optional single underscores
between digits.  Returns `none` where Python raises `ValueError`. -/
def pyParseIntStr (s : String) : Option Int :=
  pyParseIntList s.data

/-- Model of `int(content.strip())` as used on record file contents:
`some pid` where Python parses, `none` where it raises `ValueError`. -/
def readPid (content : String) : Option Int :=
  pyParseIntStr (pyStrip content)

/-- Decimal digit characters of a natural number, most significant first,
modelling the digits of Python `str(n)` for `n ≥ 0`. -/
def natDigitChar : Nat → Char
  | 0 => '0' | 1 => '1' | 2 => '2' | 3 => '3' | 4 => '4'
  | 5 => '5' | 6 => '6' | 7 => '7' | 8 => '8' | _ => '9'

/-- Fuelled decimal conversion (the fuel only bounds the recursion; it is
always sufficient at the call site below). -/
def natDigitsAux : Nat → Nat → List Char
  | 0, _ => []
  | fuel + 1, n =>
    if n < 10 then [natDigitChar n]
    else natDigitsAux fuel (n / 10) ++ [natDigitChar (n % 10)]

/-- Decimal digit list of a natural number, most significant digit first. -/
def natDigits (n : Nat) : List Char := natDigitsAux (n + 1) n

/-- Model of Python `str(n)` for a natural number. -/
def natRepr (n : Nat) : String := ⟨natDigits n⟩

/-- Model of Python `str(i)` for an integer (sign prepended when negative). -/
def intRepr : Int → String
  | Int.ofNat m => natRepr m
  | Int.negSucc m => ⟨'-' :: natDigits (m + 1)⟩

/-- Model of Python `s.split('.')` on character lists. -/
def splitDot : List Char → List (List Char)
  | [] => [[]]
  | c :: rest =>
    if c = '.' then [] :: splitDot rest
    else
      match splitDot rest with
      | h :: t => (c :: h) :: t
      | [] => [[c]]

/-- The port string `status`/`kill` derive from a record file name:
`pid_file.stem.split('.')[-1]` where the stem is `fileserver.<key>`. -/
def portOfKey (k : String) : String :=
  ⟨(splitDot (("fileserver." ++ k).data)).getLastD []⟩

/-- Python truthiness of the optional `port` argument of `kill_server`
(`if port:` — `None` and `0` are both falsy). -/
def pyTruthy : Option Int → Bool
  | none => false
  | some n => n != 0

/-! ### The instance directory -/

/-- One record file `fileserver.<key>.pid` with text content `content`. -/
structure RecordFile where
  key : String
  content : String
deriving Repr, DecidableEq

/-- The instance directory: the set of record files, as a list (file systems
give each name at most once; operations preserve that invariant). -/
abbrev Dir := List RecordFile

/-- Content of the record file named by `k`, if present. -/
def lookupKey : Dir → String → Option String
  | [], _ => none
  | r :: rest, k => if r.key == k then some r.content else lookupKey rest k

/-- Model of `pid_file.exists()`. -/
def existsKey (d : Dir) (k : String) : Bool := (lookupKey d k).isSome

/-- Model of `pid_file.unlink()`: remove the record file named by `k`. -/
def unlinkKey : Dir → String → Dir
  | [], _ => []
  | r :: rest, k => if r.key == k then unlinkKey rest k else r :: unlinkKey rest k

/-- Model of `pid_file.write_text(c)`: overwrite or create the record file. -/
def writeKey : Dir → String → String → Dir
  | [], k, c => [⟨k, c⟩]
  | r :: rest, k, c => if r.key == k then ⟨k, c⟩ :: rest else r :: writeKey rest k c

/-- File names are unique in a real directory; the operations above keep it so. -/
abbrev keysNodup (d : Dir) : Prop := (d.map (·.key)).Nodup

/-! ### PortAllocator -/

/-- Loop body of `find_available_port`: try `p, p+1, ...` for `n` attempts
against the bind oracle, returning the first port whose exclusive loopback
bind succeeds. -/
def findPortAux (bindOk : Nat → Bool) : Nat → Nat → Option Nat
  | _, 0 => none
  | p, n + 1 => if bindOk p then some p else findPortAux bindOk (p + 1) n

/-- Model of `find_available_port(start_port, max_attempts)`: the OS bind
outcome is the oracle `bindOk`. -/
def find_available_port (bindOk : Nat → Bool) (start_port : Nat) (max_attempts : Nat) : Option Nat :=
  findPortAux bindOk start_port max_attempts

/-! ### LivenessProbe -/

/-- Model of `is_process_running(pid)`: `os.kill(pid, 0)` succeeding is the
oracle `running`; any `OSError` is caught and yields `false`. -/
def is_process_running (running : Int → Bool) (pid : Int) : Bool := running pid

/-! ### LifecycleController: launch -/

/-- Environment oracles observed by one `launch_server` invocation. -/
structure LaunchEnv where
  /-- Whether the exclusive loopback bind probe succeeds on a port. -/
  bindOk : Nat → Bool
  /-- Whether `os.kill(pid, 0)` succeeds, for `is_process_running`. -/
  running : Int → Bool
  /-- Whether `subprocess.Popen` returns normally (else it raises). -/
  spawnOk : Bool
  /-- The PID of the spawned background child. -/
  childPid : Int
  /-- Whether `process.poll()` reports the child already exited after the
  2-second grace sleep. -/
  childExitedEarly : Bool
  /-- Whether the foreground `subprocess.run` ends without
  `CalledProcessError` (normal exit or `KeyboardInterrupt`). -/
  fgOk : Bool

/-- Observable outcome of `launch_server`: the returned value
(`None` modelled as `none`, `(port, pid-or-None)` as `some`), the final
directory state, and whether a child process was actually spawned. -/
structure LaunchOutcome where
  result : Option (Nat × Option Int)
  dir : Dir
  spawned : Bool
deriving Repr, DecidableEq

/-- Spawn phase of `launch_server` (the code after the stale-record check):
foreground runs the child to completion and writes no record; background
spawns, writes the record at once, sleeps, re-checks the child once and rolls
the record back on early exit; a `Popen` exception deletes the record if one
exists. -/
def launchSpawnPhase (env : LaunchEnv) (d : Dir) (actual : Nat) (foreground : Bool) :
    LaunchOutcome :=
  let key := natRepr actual
  if foreground then
    if env.fgOk then ⟨some (actual, none), d, true⟩ else ⟨none, d, true⟩
  else
    if env.spawnOk then
      let d1 := writeKey d key (intRepr env.childPid)
      if env.childExitedEarly then ⟨none, unlinkKey d1 key, true⟩
      else ⟨some (actual, some env.childPid), d1, true⟩
    else ⟨none, if existsKey d key then unlinkKey d key else d, false⟩

/-- Model of `launch_server(directory, port, ...)`: port allocation, the
existing-record check with stale cleanup, then the spawn phase. -/
def launch_server (env : LaunchEnv) (d : Dir) (port : Nat) (foreground : Bool) :
    LaunchOutcome :=
  match find_available_port env.bindOk port 100 with
  | none => ⟨none, d, false⟩
  | some actual =>
    let key := natRepr actual
    match lookupKey d key with
    | some content =>
      match readPid content with
      | some pid =>
        if is_process_running env.running pid then ⟨none, d, false⟩
        else launchSpawnPhase env (unlinkKey d key) actual foreground
      | none => launchSpawnPhase env (unlinkKey d key) actual foreground
    | none => launchSpawnPhase env d actual foreground

/-! ### LifecycleController: status -/

/-- Classification used by `status_server`: a record is live when its content
parses and the parsed PID is running. -/
def isLiveRecord (running : Int → Bool) (r : RecordFile) : Bool :=
  match readPid r.content with
  | some pid => is_process_running running pid
  | none => false

/-- Scan loop of `status_server`: split the record files into the reported
live `(pid, port)` pairs and the stale files collected for cleanup. -/
def statusScan (running : Int → Bool) : Dir → List (Int × String) × List RecordFile
  | [] => ([], [])
  | r :: rest =>
    let vs := statusScan running rest
    match readPid r.content with
    | some pid =>
      if is_process_running running pid then ((pid, portOfKey r.key) :: vs.1, vs.2)
      else (vs.1, r :: vs.2)
    | none => (vs.1, r :: vs.2)

/-- Model of `status_server(directory)`: returns the live `(pid, port)` list
and the directory after unlinking every stale file. -/
def status_server (running : Int → Bool) (d : Dir) : List (Int × String) × Dir :=
  let vs := statusScan running d
  (vs.1, vs.2.foldl (fun acc f => unlinkKey acc f.key) d)

/-- Model of the `status_server` scan as actually executed against a possibly
concurrently modified directory: `globbed` is the file-name snapshot produced
by `glob`, and a file that is gone (or unreadable) when `read_text` runs
raises an `OSError` that the surrounding `except ValueError` does not catch,
aborting the whole operation (`Except.error ()`). -/
def statusScanF (running : Int → Bool) (d : Dir) :
    List String → Except Unit (List (Int × String) × List String)
  | [] => .ok ([], [])
  | k :: rest =>
    match lookupKey d k with
    | none => .error ()
    | some content =>
      match statusScanF running d rest with
      | .error e => .error e
      | .ok (vs, st) =>
        match readPid content with
        | some pid =>
          if is_process_running running pid then .ok ((pid, portOfKey k) :: vs, st)
          else .ok (vs, k :: st)
        | none => .ok (vs, k :: st)

/-! ### LifecycleController: kill -/

/-- Outcome of one `os.kill(pid, sig)` call. -/
inductive SigResult where
  | ok
  | noSuchProcess
  | otherError
deriving Repr, DecidableEq

/-- Environment oracles observed by one `kill_server` invocation. -/
structure KillEnv where
  /-- Outcome of `os.kill(pid, SIGTERM)`. -/
  sigterm : Int → SigResult
  /-- Whether `is_process_running(pid)` still holds after the 1-second
  graceful-shutdown sleep. -/
  aliveAfterTerm : Int → Bool
  /-- Outcome of the forced `os.kill(pid, SIGKILL)`. -/
  sigkill : Int → SigResult

/-- Observable outcome of `kill_server`: the returned `killed_count`, the
internal `failed_count`, and the final directory state. -/
structure KillOutcome where
  killed : Nat
  failed : Nat
  dir : Dir
deriving Repr, DecidableEq

/-- Signal sequence of `kill_server` for one parsed PID, returning the
increments to `(killed_count, failed_count)`: SIGTERM, grace sleep, liveness
re-probe, optional SIGKILL; `errno 3` (no such process) at either signal is
reported as already-stopped and increments neither counter; any other signal
error increments the failure counter. -/
def killRecordStep (env : KillEnv) (pid : Int) : Nat × Nat :=
  match env.sigterm pid with
  | .ok =>
    if env.aliveAfterTerm pid then
      match env.sigkill pid with
      | .ok => (1, 0)
      | .noSuchProcess => (0, 0)
      | .otherError => (0, 1)
    else (1, 0)
  | .noSuchProcess => (0, 0)
  | .otherError => (0, 1)

/-- Main loop of `kill_server` over the targeted record file names:
a missing file returns `0` immediately when a specific port was requested and
is skipped otherwise; a content that fails `int(...)` is unlinked and counted
as a failure; otherwise the record is signalled via `killRecordStep` and its
file is unlinked regardless of the signal outcome. -/
def killLoop (env : KillEnv) (portGiven : Bool) :
    List String → Dir → Nat → Nat → KillOutcome
  | [], d, k, f => ⟨k, f, d⟩
  | key :: rest, d, k, f =>
    match lookupKey d key with
    | none =>
      if portGiven then ⟨0, f, d⟩
      else killLoop env portGiven rest d k f
    | some content =>
      match readPid content with
      | none => killLoop env portGiven rest (unlinkKey d key) k (f + 1)
      | some pid =>
        let step := killRecordStep env pid
        killLoop env portGiven rest (unlinkKey d key) (k + step.1) (f + step.2)

/-- Model of `kill_server(directory, port, kill_all)`: the target set is the
single file `fileserver.<port>.pid` when `port` is truthy, and every record
file in the directory otherwise (`kill_all` and the default behave the same,
as in the code). -/
def kill_server (env : KillEnv) (d : Dir) (port : Option Int) (kill_all : Bool) :
    KillOutcome :=
  if pyTruthy port then
    killLoop env true [intRepr (port.getD 0)] d 0 0
  else
    let targets := d.map (·.key)
    if targets.isEmpty then ⟨0, 0, d⟩
    else killLoop env false targets d 0 0

/-! ### CLI exit codes (`src/cli.py`) -/

/-- Exit status of `aigonviewer launch`: 1 when `launch_server` returned
`None`, 0 otherwise. -/
def cliLaunchExit (r : Option (Nat × Option Int)) : Nat :=
  if r.isSome then 0 else 1

/-- Exit status of `aigonviewer status`: always 0. -/
def cliStatusExit (_viewers : List (Int × String)) : Nat := 0

/-- Exit status of `aigonviewer kill`: 0 when at least one viewer was
counted as killed, 1 otherwise. -/
def cliKillExit (killed : Nat) : Nat :=
  if killed > 0 then 0 else 1

/-! ### Derived predicates used by the theorems -/

/-- The `(pid, port)` entry `status_server` reports for a record, if any. -/
def liveEntry (running : Int → Bool) (r : RecordFile) : Option (Int × String) :=
  match readPid r.content with
  | some pid =>
    if is_process_running running pid then some (pid, portOfKey r.key) else none
  | none => none

/-- Declarative success predicate for one targeted record of `kill_server`:
the content parses and either SIGTERM is accepted and the process is gone
after the grace period, or the follow-up SIGKILL is accepted.  A PID that is
already gone at SIGTERM time (`errno 3`) is NOT a success. -/
def killSuccessB (env : KillEnv) (r : RecordFile) : Bool :=
  match readPid r.content with
  | none => false
  | some pid =>
    match env.sigterm pid with
    | .ok => if env.aliveAfterTerm pid then env.sigkill pid == .ok else true
    | .noSuchProcess => false
    | .otherError => false

/-- Declarative failure predicate for one targeted record of `kill_server`:
unparsable content, or a signal rejected for a reason other than
"no such process". -/
def killFailB (env : KillEnv) (r : RecordFile) : Bool :=
  match readPid r.content with
  | none => true
  | some pid =>
    match env.sigterm pid with
    | .ok => env.aliveAfterTerm pid && env.sigkill pid == .otherError
    | .noSuchProcess => false
    | .otherError => true

/-- A record content is stale for `launch_server`'s check when it is
malformed or parses to a PID that is not running. -/
def isStaleContent (running : Int → Bool) (c : String) : Bool :=
  match readPid c with
  | none => true
  | some pid => !is_process_running running pid

/-- No two adjacent underscores occur in the list. -/
def noDoubleUnderscore : List Char → Bool
  | [] => true
  | [_] => true
  | c :: c2 :: rest => !(c == '_' && c2 == '_') && noDoubleUnderscore (c2 :: rest)

/-- Declarative description of Python's integer-literal digit part:
nonempty, only digits and underscores, first and last characters digits,
and no two adjacent underscores. -/
def validDigitPart (l : List Char) : Bool :=
  !l.isEmpty &&
  l.all (fun c => c.isDigit || c == '_') &&
  (match l.head? with | some c => c.isDigit | none => false) &&
  (match l.getLast? with | some c => c.isDigit | none => false) &&
  noDoubleUnderscore l

/-- Declarative description of the suffix accepted after the first digit:
only digits and underscores, no two adjacent underscores, and the last
character (when any) is a digit. -/
def validRest (l : List Char) : Bool :=
  l.all (fun c => c.isDigit || c == '_') &&
  noDoubleUnderscore l &&
  (match l.getLast? with | none => true | some c => c.isDigit)

/-- Declarative description of the strings Python's `int(...)` accepts
(ASCII subset): an optional sign followed by a valid digit part. -/
def validPyIntTxt (l : List Char) : Bool :=
  match l with
  | [] => false
  | c :: rest =>
    if c = '+' then validDigitPart rest
    else if c = '-' then validDigitPart rest
    else validDigitPart (c :: rest)

/-- The claim's notion of a "valid non-negative integer" content:
a nonempty string of decimal digits. -/
def isNonNegDecimal (s : String) : Bool :=
  !s.data.isEmpty && s.data.all Char.isDigit

/-- The record path named `k` does not block a launch: no record there, or a
stale one (malformed or not-running PID). -/
def clearPathB (running : Int → Bool) (d : Dir) (k : String) : Bool :=
  match lookupKey d k with
  | none => true
  | some c => isStaleContent running c

/-! ### Directory lemmas -/

theorem lookupKey_cons_self (r : RecordFile) (rest : Dir) :
    lookupKey (r :: rest) r.key = some r.content := by
  simp [lookupKey]

theorem unlinkKey_eq_filter (d : Dir) (k : String) :
    unlinkKey d k = d.filter (fun r => !(r.key == k)) := by
  induction d with
  | nil => rfl
  | cons r rest ih =>
    by_cases h : r.key = k
    · simp [unlinkKey, List.filter_cons, h, ih]
    · have hb : (r.key == k) = false := beq_eq_false_iff_ne.mpr h
      simp [unlinkKey, List.filter_cons, hb, ih]

theorem lookupKey_eq_none_iff (d : Dir) (k : String) :
    lookupKey d k = none ↔ ∀ r ∈ d, r.key ≠ k := by
  induction d with
  | nil => simp [lookupKey]
  | cons r rest ih =>
    by_cases h : r.key = k <;> simp [lookupKey, h, ih]

theorem lookupKey_mem (d : Dir) (k c : String) (h : lookupKey d k = some c) :
    ∃ r ∈ d, r.key = k ∧ r.content = c := by
  induction d with
  | nil => simp [lookupKey] at h
  | cons r rest ih =>
    by_cases hk : r.key = k
    · refine ⟨r, List.mem_cons_self r rest, hk, ?_⟩
      simp [lookupKey, hk] at h
      exact h
    · simp [lookupKey, hk] at h
      obtain ⟨r2, hmem, hk2, hc⟩ := ih h
      exact ⟨r2, List.mem_cons_of_mem _ hmem, hk2, hc⟩

theorem lookupKey_unlink_self (d : Dir) (k : String) :
    lookupKey (unlinkKey d k) k = none := by
  rw [unlinkKey_eq_filter, lookupKey_eq_none_iff]
  intro r hr
  have := List.of_mem_filter hr
  simpa using this

theorem lookupKey_unlink_ne (d : Dir) {k k2 : String} (h : k2 ≠ k) :
    lookupKey (unlinkKey d k) k2 = lookupKey d k2 := by
  induction d with
  | nil => rfl
  | cons r rest ih =>
    by_cases hk : r.key = k
    · have h2 : r.key ≠ k2 := by rw [hk]; exact Ne.symm h
      simp [unlinkKey, lookupKey, hk, h2, Ne.symm h, ih]
    · by_cases hk2 : r.key = k2 <;>
        simp [unlinkKey, lookupKey, hk, hk2, h, Ne.symm h, ih]

theorem lookupKey_write_self (d : Dir) (k c : String) :
    lookupKey (writeKey d k c) k = some c := by
  induction d with
  | nil => simp [writeKey, lookupKey]
  | cons r rest ih =>
    by_cases hk : r.key = k <;> simp [writeKey, lookupKey, hk, ih]

theorem lookupKey_write_ne (d : Dir) {k k2 : String} (h : k2 ≠ k) (c : String) :
    lookupKey (writeKey d k c) k2 = lookupKey d k2 := by
  induction d with
  | nil => simp [writeKey, lookupKey, Ne.symm h]
  | cons r rest ih =>
    by_cases hk : r.key = k
    · have h2 : r.key ≠ k2 := by rw [hk]; exact Ne.symm h
      simp [writeKey, lookupKey, hk, h2, Ne.symm h]
    · by_cases hk2 : r.key = k2 <;>
        simp [writeKey, lookupKey, hk, hk2, h, Ne.symm h, ih]

theorem unlinkKey_of_not_mem (d : Dir) (k : String) (h : ∀ r ∈ d, r.key ≠ k) :
    unlinkKey d k = d := by
  rw [unlinkKey_eq_filter]
  apply List.filter_eq_self.mpr
  intro r hr
  simpa using h r hr

theorem unlinkKey_cons_head (r : RecordFile) (rest : Dir)
    (h : ∀ f ∈ rest, f.key ≠ r.key) :
    unlinkKey (r :: rest) r.key = rest := by
  simp [unlinkKey]
  exact unlinkKey_of_not_mem rest r.key h

theorem keysNodup_head {r : RecordFile} {rest : Dir} (h : keysNodup (r :: rest)) :
    (∀ f ∈ rest, f.key ≠ r.key) ∧ keysNodup rest := by
  unfold keysNodup at h ⊢
  simp only [List.map_cons, List.nodup_cons] at h
  refine ⟨?_, h.2⟩
  intro f hf he
  exact h.1 (he ▸ List.mem_map_of_mem (·.key) hf)

/-! ### PortAllocator lemmas -/

theorem findPortAux_some (bindOk : Nat → Bool) :
    ∀ (n start p : Nat), findPortAux bindOk start n = some p →
      bindOk p = true ∧ start ≤ p ∧ p < start + n ∧
        ∀ q, start ≤ q → q < p → bindOk q = false := by
  intro n
  induction n with
  | zero => intro start p h; simp [findPortAux] at h
  | succ m ih =>
    intro start p h
    rw [findPortAux] at h
    by_cases hb : bindOk start = true
    · rw [if_pos hb] at h
      obtain rfl : start = p := by simpa using h
      exact ⟨hb, Nat.le_refl _, by omega, fun q h1 h2 => by omega⟩
    · rw [if_neg hb] at h
      obtain ⟨h1, h2, h3, h4⟩ := ih (start + 1) p h
      refine ⟨h1, by omega, by omega, ?_⟩
      intro q hq1 hq2
      rcases Nat.eq_or_lt_of_le hq1 with rfl | hlt
      · simpa using hb
      · exact h4 q hlt hq2

theorem findPortAux_none (bindOk : Nat → Bool) :
    ∀ (n start : Nat), findPortAux bindOk start n = none ↔
      ∀ q, start ≤ q → q < start + n → bindOk q = false := by
  intro n
  induction n with
  | zero => intro start; simp [findPortAux]; intro q h1 h2; omega
  | succ m ih =>
    intro start
    rw [findPortAux]
    by_cases hb : bindOk start = true
    · simp only [if_pos hb]
      constructor
      · intro h; simp at h
      · intro h
        have := h start (Nat.le_refl _) (by omega)
        rw [hb] at this; simp at this
    · simp only [if_neg hb, ih (start + 1)]
      constructor
      · intro h q h1 h2
        rcases Nat.eq_or_lt_of_le h1 with rfl | hlt
        · simpa using hb
        · exact h q hlt (by omega)
      · intro h q h1 h2
        exact h q (by omega) (by omega)

theorem findPortAux_first (bindOk : Nat → Bool) (start m : Nat)
    (hb : bindOk start = true) :
    findPortAux bindOk start (m + 1) = some start := by
  rw [findPortAux, if_pos hb]

/-- Claim C8: `find_available_port` probes `start .. start+n-1` in ascending
order and returns the first port whose exclusive loopback bind succeeds —
`start` itself when `start` is free, otherwise the least free port of the
range — and `none` exactly when every port of the range fails to bind. -/
theorem C8_find_available_port_spec (bindOk : Nat → Bool) (start n : Nat) :
    (∀ p, find_available_port bindOk start n = some p →
      bindOk p = true ∧ start ≤ p ∧ p < start + n ∧
        ∀ q, start ≤ q → q < p → bindOk q = false) ∧
    (find_available_port bindOk start n = none ↔
      ∀ q, start ≤ q → q < start + n → bindOk q = false) ∧
    (0 < n → bindOk start = true → find_available_port bindOk start n = some start) := by
  refine ⟨fun p => findPortAux_some bindOk n start p, findPortAux_none bindOk n start, ?_⟩
  intro hn hb
  obtain ⟨m, rfl⟩ : ∃ m, n = m + 1 := ⟨n - 1, by omega⟩
  exact findPortAux_first bindOk start m hb

/-- Witness for C8 at a concrete bind oracle: with only port 4444 occupied,
the probe starting at free port 4445 returns 4445 itself, and the returned
port satisfies the stated range and minimality properties. -/
theorem C8_witness :
    find_available_port (fun p => p != 4444) 4445 100 = some 4445 ∧
    ((fun p : Nat => p != 4444) 4445 = true ∧ 4445 ≤ 4445 ∧ 4445 < 4445 + 100 ∧
      ∀ q, 4445 ≤ q → q < 4445 → (fun p : Nat => p != 4444) q = false) := by
  have h := (C8_find_available_port_spec (fun p => p != 4444) 4445 100).2.2
    (by decide) (by decide)
  exact ⟨h, (C8_find_available_port_spec (fun p => p != 4444) 4445 100).1 4445 h⟩

/-! ### Decimal representation lemmas -/

theorem natDigitChar_props : ∀ d : Nat, (natDigitChar d).isDigit = true ∧
    natDigitChar d ≠ '.' ∧ natDigitChar d ≠ '_' ∧ natDigitChar d ≠ '+' ∧
    natDigitChar d ≠ '-' ∧ isPyWs (natDigitChar d) = false
  | 0 => by decide
  | 1 => by decide
  | 2 => by decide
  | 3 => by decide
  | 4 => by decide
  | 5 => by decide
  | 6 => by decide
  | 7 => by decide
  | 8 => by decide
  | n + 9 => by
    have h : natDigitChar (n + 9) = '9' := rfl
    rw [h]; decide

theorem natDigitChar_toNat : ∀ d : Nat, d < 10 → (natDigitChar d).toNat - 48 = d := by
  decide

theorem natDigitsAux_props : ∀ (fuel n : Nat), n < fuel → ∀ c ∈ natDigitsAux fuel n,
    c.isDigit = true ∧ c ≠ '.' ∧ c ≠ '_' ∧ c ≠ '+' ∧ c ≠ '-' ∧ isPyWs c = false := by
  intro fuel
  induction fuel with
  | zero => intro n h; omega
  | succ f ih =>
    intro n _ c hc
    rw [natDigitsAux] at hc
    by_cases h10 : n < 10
    · rw [if_pos h10, List.mem_singleton] at hc
      exact hc ▸ natDigitChar_props n
    · rw [if_neg h10, List.mem_append] at hc
      rcases hc with hc | hc
      · exact ih (n / 10) (by omega) c hc
      · rw [List.mem_singleton] at hc
        exact hc ▸ natDigitChar_props (n % 10)

theorem natDigits_props (n : Nat) : ∀ c ∈ natDigits n,
    c.isDigit = true ∧ c ≠ '.' ∧ c ≠ '_' ∧ c ≠ '+' ∧ c ≠ '-' ∧ isPyWs c = false :=
  natDigitsAux_props (n + 1) n (by omega)

theorem natDigits_ne_nil (n : Nat) : natDigits n ≠ [] := by
  unfold natDigits natDigitsAux
  split
  · simp
  · simp

theorem digitsVal_append_singleton (l : List Char) (c : Char) :
    digitsVal (l ++ [c]) = 10 * digitsVal l + (c.toNat - 48) := by
  simp [digitsVal, List.foldl_append]

theorem natDigitsAux_val : ∀ (fuel n : Nat), n < fuel →
    digitsVal (natDigitsAux fuel n) = n := by
  intro fuel
  induction fuel with
  | zero => intro n h; omega
  | succ f ih =>
    intro n hn
    rw [natDigitsAux]
    by_cases h10 : n < 10
    · rw [if_pos h10]
      simp only [digitsVal, List.foldl_cons, List.foldl_nil, Nat.mul_zero, Nat.zero_add]
      exact natDigitChar_toNat n h10
    · rw [if_neg h10, digitsVal_append_singleton, ih (n / 10) (by omega),
        natDigitChar_toNat (n % 10) (Nat.mod_lt n (by omega))]
      omega

theorem digitsVal_natDigits (n : Nat) : digitsVal (natDigits n) = n :=
  natDigitsAux_val (n + 1) n (by omega)

/-! ### Parsing lemmas -/

theorem dropWhile_eq_self_of_all {p : Char → Bool} {l : List Char}
    (h : ∀ c ∈ l, p c = false) : l.dropWhile p = l := by
  cases l with
  | nil => rfl
  | cons c rest =>
    rw [List.dropWhile_cons, h c (List.mem_cons_self c rest)]
    simp

theorem pyStrip_of_no_ws (l : List Char) (h : ∀ c ∈ l, isPyWs c = false) :
    pyStrip ⟨l⟩ = ⟨l⟩ := by
  unfold pyStrip
  rw [dropWhile_eq_self_of_all h, dropWhile_eq_self_of_all, List.reverse_reverse]
  intro c hc
  exact h c (List.mem_reverse.mp hc)

theorem digitsRest_of_all_digits : ∀ (l : List Char),
    (∀ c ∈ l, c.isDigit = true ∧ c ≠ '_') → digitsRest l = some l
  | [], _ => rfl
  | [c], h => by
    have hc := h c (List.mem_cons_self c [])
    rw [digitsRest, if_neg hc.2, if_pos hc.1]
  | c :: c2 :: rest, h => by
    have hc := h c (List.mem_cons_self c (c2 :: rest))
    have ih := digitsRest_of_all_digits (c2 :: rest)
      (fun x hx => h x (List.mem_cons_of_mem c hx))
    rw [digitsRest, if_neg hc.2, if_pos hc.1, ih]
    rfl

theorem parseDigitPart_of_all_digits (l : List Char) (hne : l ≠ [])
    (h : ∀ c ∈ l, c.isDigit = true ∧ c ≠ '_') : parseDigitPart l = some l := by
  cases l with
  | nil => exact absurd rfl hne
  | cons c rest =>
    have hc := h c (List.mem_cons_self c rest)
    rw [parseDigitPart, if_pos hc.1,
      digitsRest_of_all_digits rest (fun c2 hc2 => h c2 (List.mem_cons_of_mem c hc2))]
    rfl

theorem readPid_natRepr (m : Nat) : readPid (natRepr m) = some (m : Int) := by
  have hprops := natDigits_props m
  have hne := natDigits_ne_nil m
  unfold readPid natRepr
  rw [pyStrip_of_no_ws _ (fun c hc => (hprops c hc).2.2.2.2.2)]
  obtain ⟨c, cs, hcons⟩ := List.exists_cons_of_ne_nil hne
  have hc := hprops c (by rw [hcons]; exact List.mem_cons_self c cs)
  show pyParseIntList (natDigits m) = some (m : Int)
  rw [hcons, pyParseIntList, if_neg hc.2.2.2.1, if_neg hc.2.2.2.2.1, ← hcons,
    parseDigitPart_of_all_digits _ hne
      (fun c2 hc2 => ⟨(hprops c2 hc2).1, (hprops c2 hc2).2.2.1⟩)]
  simp [digitsVal_natDigits m]

theorem readPid_intRepr (i : Int) : readPid (intRepr i) = some i := by
  cases i with
  | ofNat m => exact readPid_natRepr m
  | negSucc m =>
    have hprops := natDigits_props (m + 1)
    have hne := natDigits_ne_nil (m + 1)
    unfold readPid intRepr
    rw [pyStrip_of_no_ws]
    · show pyParseIntList ('-' :: natDigits (m + 1)) = some (Int.negSucc m)
      rw [pyParseIntList, if_neg (by decide : ¬('-' = '+')), if_pos rfl,
        parseDigitPart_of_all_digits _ hne
          (fun c2 hc2 => ⟨(hprops c2 hc2).1, (hprops c2 hc2).2.2.1⟩)]
      simp [digitsVal_natDigits (m + 1), Int.negSucc_eq]
    · intro c hc
      rcases List.mem_cons.mp hc with rfl | hc2
      · decide
      · exact (hprops c hc2).2.2.2.2.2

/-! ### Port-string extraction lemmas -/

theorem splitDot_ne_nil (l : List Char) : splitDot l ≠ [] := by
  cases l with
  | nil => simp [splitDot]
  | cons c rest =>
    rw [splitDot]
    split
    · simp
    · split <;> simp

theorem splitDot_of_no_dot (l : List Char) (h : ∀ c ∈ l, c ≠ '.') :
    splitDot l = [l] := by
  induction l with
  | nil => rfl
  | cons c rest ih =>
    rw [splitDot, if_neg (h c (List.mem_cons_self c rest)),
      ih (fun c2 hc2 => h c2 (List.mem_cons_of_mem c hc2))]

theorem splitDot_length (l : List Char) :
    (splitDot l).length = l.count '.' + 1 := by
  induction l with
  | nil => rfl
  | cons c rest ih =>
    rw [splitDot]
    by_cases h : c = '.'
    · subst h
      rw [if_pos rfl, List.length_cons, ih, List.count_cons_self]
    · rw [if_neg h]
      obtain ⟨x, xs, hx⟩ := List.exists_cons_of_ne_nil (splitDot_ne_nil rest)
      have hlen : (splitDot rest).length = xs.length + 1 := by
        rw [hx, List.length_cons]
      rw [ih] at hlen
      rw [hx]
      show xs.length + 1 = (c :: rest).count '.' + 1
      rw [List.count_cons_of_ne (Ne.symm h)]
      omega

theorem getLastD_irrel {α : Type} : ∀ (l : List α), l ≠ [] →
    ∀ (a b : α), l.getLastD a = l.getLastD b
  | [], hne, _, _ => absurd rfl hne
  | x :: xs, _, a, b => by rw [List.getLastD_cons, List.getLastD_cons]

theorem splitDot_append_dot (l1 l2 : List Char) :
    (splitDot (l1 ++ '.' :: l2)).getLastD [] = (splitDot l2).getLastD [] := by
  induction l1 with
  | nil =>
    rw [List.nil_append, splitDot, if_pos rfl, List.getLastD_cons]
  | cons c l1' ih =>
    rw [List.cons_append, splitDot]
    by_cases h : c = '.'
    · rw [if_pos h, List.getLastD_cons]
      exact ih
    · rw [if_neg h]
      have hlen : 2 ≤ (splitDot (l1' ++ '.' :: l2)).length := by
        rw [splitDot_length, List.count_append, List.count_cons_self]
        omega
      obtain ⟨x, xs, hx⟩ := List.exists_cons_of_ne_nil (splitDot_ne_nil (l1' ++ '.' :: l2))
      have hxs : xs ≠ [] := by
        intro he
        rw [hx, he] at hlen
        simp at hlen
      rw [hx]
      show ((c :: x) :: xs).getLastD [] = (splitDot l2).getLastD []
      rw [List.getLastD_cons, ← ih, hx, List.getLastD_cons]
      exact getLastD_irrel xs hxs (c :: x) x

theorem portOfKey_no_dot (k : String) (h : ∀ c ∈ k.data, c ≠ '.') :
    portOfKey k = k := by
  unfold portOfKey
  have hdata : ("fileserver." ++ k).data = "fileserver".data ++ '.' :: k.data := by
    rw [String.data_append]
    rfl
  rw [hdata, splitDot_append_dot, splitDot_of_no_dot k.data h]
  rfl

theorem portOfKey_natRepr (p : Nat) : portOfKey (natRepr p) = natRepr p := by
  apply portOfKey_no_dot
  intro c hc
  exact (natDigits_props p c hc).2.1

/-! ### Status characterization -/

theorem key_inj {d : Dir} (h : keysNodup d) {r f : RecordFile}
    (hr : r ∈ d) (hf : f ∈ d) (he : r.key = f.key) : r = f :=
  List.inj_on_of_nodup_map h hr hf he

theorem statusScan_viewers (running : Int → Bool) (d : Dir) :
    (statusScan running d).1 = d.filterMap (liveEntry running) := by
  induction d with
  | nil => rfl
  | cons r rest ih =>
    cases hp : readPid r.content with
    | none => simp [statusScan, List.filterMap_cons, liveEntry, hp, ih]
    | some pid =>
      by_cases hr : is_process_running running pid <;>
        simp [statusScan, List.filterMap_cons, liveEntry, hp, hr, ih]

theorem statusScan_stale (running : Int → Bool) (d : Dir) :
    (statusScan running d).2 = d.filter (fun r => !isLiveRecord running r) := by
  induction d with
  | nil => rfl
  | cons r rest ih =>
    cases hp : readPid r.content with
    | none => simp [statusScan, List.filter_cons, isLiveRecord, hp, ih]
    | some pid =>
      by_cases hr : is_process_running running pid <;>
        simp [statusScan, List.filter_cons, isLiveRecord, hp, hr, ih]

theorem foldl_unlink (l : List RecordFile) : ∀ (d : Dir),
    l.foldl (fun acc f => unlinkKey acc f.key) d =
      d.filter (fun r => l.all (fun f => !(r.key == f.key))) := by
  induction l with
  | nil => intro d; simp
  | cons f l ih =>
    intro d
    rw [List.foldl_cons, ih, unlinkKey_eq_filter, List.filter_filter]
    apply List.filter_congr
    intro r _
    simp [List.all_cons, Bool.and_comm]

theorem status_server_viewers (running : Int → Bool) (d : Dir) :
    (status_server running d).1 = d.filterMap (liveEntry running) := by
  unfold status_server
  exact statusScan_viewers running d

theorem status_server_dir (running : Int → Bool) (d : Dir) (h : keysNodup d) :
    (status_server running d).2 = d.filter (isLiveRecord running) := by
  unfold status_server
  simp only
  rw [statusScan_stale, foldl_unlink]
  apply List.filter_congr
  intro r hr
  by_cases hl : isLiveRecord running r = true
  · rw [hl]
    apply List.all_eq_true.mpr
    intro f hf
    obtain ⟨hfd, hfl⟩ := List.mem_filter.mp hf
    have hne : r.key ≠ f.key := by
      intro he
      have heq : r = f := key_inj h hr hfd he
      rw [← heq, hl] at hfl
      simp at hfl
    simpa using hne
  · rw [Bool.eq_false_iff.mpr hl]
    apply List.all_eq_false.mpr
    refine ⟨r, List.mem_filter.mpr ⟨hr, by simp [Bool.eq_false_iff.mpr hl]⟩, by simp⟩

theorem lookupKey_filter_none {d : Dir} (h : keysNodup d) {r : RecordFile}
    (hr : r ∈ d) {p : RecordFile → Bool} (hnot : p r = false) :
    lookupKey (d.filter p) r.key = none := by
  rw [lookupKey_eq_none_iff]
  intro f hf he
  obtain ⟨hfd, hpf⟩ := List.mem_filter.mp hf
  rw [key_inj h hfd hr he, hnot] at hpf
  exact Bool.false_ne_true hpf

/-! ### Kill characterization -/

theorem killRecordStep_counts (env : KillEnv) (r : RecordFile) (pid : Int)
    (hp : readPid r.content = some pid) :
    (killRecordStep env pid).1 = (if killSuccessB env r then 1 else 0) ∧
    (killRecordStep env pid).2 = (if killFailB env r then 1 else 0) := by
  unfold killRecordStep killSuccessB killFailB
  rw [hp]
  cases ht : env.sigterm pid with
  | ok =>
    by_cases ha : env.aliveAfterTerm pid
    · cases hk : env.sigkill pid <;> simp [ht, ha, hk]
    · simp [ht, ha]
  | noSuchProcess => simp [ht]
  | otherError => simp [ht]

theorem killLoop_glob (env : KillEnv) : ∀ (d : Dir) (k f : Nat), keysNodup d →
    killLoop env false (d.map (·.key)) d k f =
      ⟨k + d.countP (killSuccessB env), f + d.countP (killFailB env), []⟩ := by
  intro d
  induction d with
  | nil => intro k f _; simp [killLoop]
  | cons r rest ih =>
    intro k f h
    obtain ⟨hnot, hrest⟩ := keysNodup_head h
    cases hp : readPid r.content with
    | none =>
      rw [List.map_cons]
      simp only [killLoop, lookupKey_cons_self, hp]
      rw [unlinkKey_cons_head r rest hnot, ih k (f + 1) hrest]
      have hs : killSuccessB env r = false := by simp [killSuccessB, hp]
      have hf : killFailB env r = true := by simp [killFailB, hp]
      simp [List.countP_cons, hs, hf]
      omega
    | some pid =>
      rw [List.map_cons]
      simp only [killLoop, lookupKey_cons_self, hp]
      rw [unlinkKey_cons_head r rest hnot,
        ih (k + (killRecordStep env pid).1) (f + (killRecordStep env pid).2) hrest]
      obtain ⟨h1, h2⟩ := killRecordStep_counts env r pid hp
      simp only [KillOutcome.mk.injEq, List.countP_cons]
      refine ⟨?_, ?_, trivial⟩
      · rw [h1]; by_cases hs : killSuccessB env r <;> simp [hs] <;> omega
      · rw [h2]; by_cases hf : killFailB env r <;> simp [hf] <;> omega

theorem kill_server_none (env : KillEnv) (d : Dir) (ka : Bool) (h : keysNodup d) :
    kill_server env d none ka =
      ⟨d.countP (killSuccessB env), d.countP (killFailB env), []⟩ := by
  unfold kill_server
  rw [if_neg (by simp [pyTruthy])]
  by_cases hd : d = []
  · subst hd; simp
  · simp only
    rw [if_neg (by simpa [List.isEmpty_iff] using hd)]
    have := killLoop_glob env d 0 0 h
    simpa using this

theorem pyTruthy_some {n : Int} (hn : n ≠ 0) : pyTruthy (some n) = true := by
  simp [pyTruthy, hn]

theorem kill_server_port_dir (env : KillEnv) (d : Dir) (ka : Bool) (n : Int)
    (hn : n ≠ 0) (c : String) (hc : lookupKey d (intRepr n) = some c) :
    (kill_server env d (some n) ka).dir = unlinkKey d (intRepr n) := by
  unfold kill_server
  rw [if_pos (pyTruthy_some hn)]
  simp only [Option.getD_some]
  cases hp : readPid c <;> simp [killLoop, hc, hp]

theorem kill_server_port_missing (env : KillEnv) (d : Dir) (ka : Bool) (n : Int)
    (hn : n ≠ 0) (hc : lookupKey d (intRepr n) = none) :
    kill_server env d (some n) ka = ⟨0, 0, d⟩ := by
  unfold kill_server
  rw [if_pos (pyTruthy_some hn)]
  simp [killLoop, hc]

/-! ### Claim C10: kill with port 0 -/

/-- Claim C10: because `kill_server` tests `if port:` (truthiness) rather
than `port is not None`, calling it with `port = 0` does not target the
record for port 0: it enumerates and targets every record file in the
directory, exactly as if no port had been given; in particular with unique
file names every record file is deleted. -/
theorem C10_kill_port_zero (env : KillEnv) (d : Dir) (ka : Bool) :
    kill_server env d (some 0) ka = kill_server env d none ka ∧
    (keysNodup d → (kill_server env d (some 0) ka).dir = []) := by
  have he : kill_server env d (some 0) ka = kill_server env d none ka := rfl
  refine ⟨he, fun h => ?_⟩
  rw [he, kill_server_none env d ka h]

/-- Witness for C10 at a concrete directory containing both a record named
"0" and another record: `kill` with port 0 equals the no-port call and
deletes every record file. -/
theorem C10_witness :
    kill_server ⟨fun _ => .ok, fun _ => false, fun _ => .ok⟩
        [⟨"0", "5"⟩, ⟨"4444", "6"⟩] (some 0) false =
      kill_server ⟨fun _ => .ok, fun _ => false, fun _ => .ok⟩
        [⟨"0", "5"⟩, ⟨"4444", "6"⟩] none false ∧
    (kill_server ⟨fun _ => .ok, fun _ => false, fun _ => .ok⟩
        [⟨"0", "5"⟩, ⟨"4444", "6"⟩] (some 0) false).dir = [] := by
  have h := C10_kill_port_zero ⟨fun _ => .ok, fun _ => false, fun _ => .ok⟩
    [⟨"0", "5"⟩, ⟨"4444", "6"⟩] false
  exact ⟨h.1, h.2 (by decide)⟩

/-! ### Claim C1: counting of already-stopped processes by kill -/

/-- Counterexample to claim C1 as stated: a single targeted record whose PID
raises "no such process" at SIGTERM time.  The claim says this is counted as
a success, so `kill` should return 1 and the CLI should exit 0; the code
does not increment `killed_count` in the `errno == 3` branch, so `kill`
returns 0 and the CLI exits 1. -/
theorem C1_counterexample :
    (kill_server ⟨fun _ => .noSuchProcess, fun _ => false, fun _ => .ok⟩
        [⟨"4444", "123"⟩] none false).killed = 0 ∧
    cliKillExit (kill_server ⟨fun _ => .noSuchProcess, fun _ => false, fun _ => .ok⟩
        [⟨"4444", "123"⟩] none false).killed = 1 := by
  exact ⟨rfl, rfl⟩

/-- Claim C1 (amended): a targeted record whose PID raises "no such process"
at SIGTERM time is treated as benign — it is reported as already stopped,
increments neither the success nor the failure counter, and its record file
is still deleted — but it is NOT counted as a success.  `kill_server`
returns the number of targeted entries for which a termination signal was
actually delivered (SIGTERM accepted and, if the process was still alive
after the grace period, SIGKILL accepted), so the CLI exits 0 exactly when
at least one such delivery occurred. -/
theorem C1_kill_count (env : KillEnv) (d : Dir) (ka : Bool) (h : keysNodup d) :
    (kill_server env d none ka).killed = d.countP (killSuccessB env) ∧
    (∀ r ∈ d, ∀ pid, readPid r.content = some pid →
      env.sigterm pid = .noSuchProcess →
      killSuccessB env r = false ∧ killFailB env r = false ∧
      lookupKey (kill_server env d none ka).dir r.key = none) ∧
    (cliKillExit (kill_server env d none ka).killed = 0 ↔
      ∃ r ∈ d, killSuccessB env r = true) := by
  rw [kill_server_none env d ka h]
  refine ⟨rfl, ?_, ?_⟩
  · intro r _ pid hp ht
    refine ⟨by simp [killSuccessB, hp, ht], by simp [killFailB, hp, ht], rfl⟩
  · unfold cliKillExit
    constructor
    · intro he
      by_cases hc : 0 < d.countP (killSuccessB env)
      · exact List.countP_pos_iff.mp hc
      · simp only [if_neg hc] at he
        exact absurd he one_ne_zero
    · intro hex
      rw [if_pos (List.countP_pos_iff.mpr hex)]

/-- Witness for C1 (amended) at a concrete environment: PID 10 accepts
SIGTERM and dies, PID 20 is already gone at SIGTERM time; `kill` returns 1
(only the delivered termination counts) and the CLI exits 0 because one
delivery occurred. -/
theorem C1_witness :
    (kill_server ⟨fun pid => if pid = 20 then .noSuchProcess else .ok,
        fun _ => false, fun _ => .ok⟩
        [⟨"4444", "10"⟩, ⟨"5555", "20"⟩] none false).killed =
      List.countP
        (killSuccessB ⟨fun pid => if pid = 20 then .noSuchProcess else .ok,
          fun _ => false, fun _ => .ok⟩)
        [⟨"4444", "10"⟩, ⟨"5555", "20"⟩] ∧
    (killSuccessB ⟨fun pid => if pid = 20 then .noSuchProcess else .ok,
        fun _ => false, fun _ => .ok⟩ ⟨"5555", "20"⟩ = false ∧
      killFailB ⟨fun pid => if pid = 20 then .noSuchProcess else .ok,
        fun _ => false, fun _ => .ok⟩ ⟨"5555", "20"⟩ = false ∧
      lookupKey (kill_server ⟨fun pid => if pid = 20 then .noSuchProcess else .ok,
        fun _ => false, fun _ => .ok⟩
        [⟨"4444", "10"⟩, ⟨"5555", "20"⟩] none false).dir "5555" = none) := by
  have h := C1_kill_count
    ⟨fun pid => if pid = 20 then .noSuchProcess else .ok, fun _ => false, fun _ => .ok⟩
    [⟨"4444", "10"⟩, ⟨"5555", "20"⟩] false (by decide)
  refine ⟨h.1, h.2.1 ⟨"5555", "20"⟩ (by simp) 20 (by decide) (by simp)⟩

/-! ### Claim C6: kill deletes every targeted record regardless of outcome -/

/-- Claim C6: for every kill invocation and every targeted record file that
exists, the record file is deleted before `kill_server` returns, whatever
the outcome of signalling its PID; a termination signal that fails for a
reason other than "process absent" is counted in the failure counter while
processing of the remaining targets continues (every target is still
deleted and every failure is counted). -/
theorem C6_kill_deletes_targets (env : KillEnv) (d : Dir) (ka : Bool)
    (h : keysNodup d) :
    ((kill_server env d none ka).dir = [] ∧
      ∀ r ∈ d, lookupKey (kill_server env d none ka).dir r.key = none) ∧
    (∀ n : Int, n ≠ 0 → ∀ c, lookupKey d (intRepr n) = some c →
      (kill_server env d (some n) ka).dir = unlinkKey d (intRepr n) ∧
      lookupKey (kill_server env d (some n) ka).dir (intRepr n) = none) ∧
    (kill_server env d none ka).failed = d.countP (killFailB env) := by
  rw [kill_server_none env d ka h]
  refine ⟨⟨rfl, fun r _ => rfl⟩, ?_, rfl⟩
  intro n hn c hc
  rw [kill_server_port_dir env d ka n hn c hc]
  exact ⟨rfl, lookupKey_unlink_self d (intRepr n)⟩

/-- Witness for C6 at a concrete environment where PID 10's SIGTERM is
rejected with a non-ENOENT error and PID 20's succeeds: both record files
are deleted, the failure is counted, and the single-port form also deletes
its target. -/
theorem C6_witness :
    ((kill_server ⟨fun pid => if pid = 10 then .otherError else .ok,
        fun _ => false, fun _ => .ok⟩
        [⟨"4444", "10"⟩, ⟨"5555", "20"⟩] none false).dir = [] ∧
      (kill_server ⟨fun pid => if pid = 10 then .otherError else .ok,
        fun _ => false, fun _ => .ok⟩
        [⟨"4444", "10"⟩, ⟨"5555", "20"⟩] none false).failed =
        List.countP
          (killFailB ⟨fun pid => if pid = 10 then .otherError else .ok,
            fun _ => false, fun _ => .ok⟩)
          [⟨"4444", "10"⟩, ⟨"5555", "20"⟩]) ∧
    (kill_server ⟨fun pid => if pid = 10 then .otherError else .ok,
        fun _ => false, fun _ => .ok⟩
        [⟨"4444", "10"⟩, ⟨"5555", "20"⟩] (some 4444) false).dir =
      unlinkKey [⟨"4444", "10"⟩, ⟨"5555", "20"⟩] (intRepr 4444) := by
  have h := C6_kill_deletes_targets
    ⟨fun pid => if pid = 10 then .otherError else .ok, fun _ => false, fun _ => .ok⟩
    [⟨"4444", "10"⟩, ⟨"5555", "20"⟩] false (by decide)
  refine ⟨⟨h.1.1, h.2.2⟩, ?_⟩
  exact (h.2.1 4444 (by decide) "10" (by decide)).1

/-! ### Launch helper lemmas -/

theorem find_available_port_start (bindOk : Nat → Bool) (start : Nat)
    (hb : bindOk start = true) :
    find_available_port bindOk start 100 = some start :=
  findPortAux_first bindOk start 99 hb

theorem launchSpawnPhase_lookup_self (env : LaunchEnv) (d2 : Dir) (actual : Nat)
    (fg : Bool) (hnone : lookupKey d2 (natRepr actual) = none) :
    lookupKey (launchSpawnPhase env d2 actual fg).dir (natRepr actual) = none ∨
    lookupKey (launchSpawnPhase env d2 actual fg).dir (natRepr actual) =
      some (intRepr env.childPid) := by
  unfold launchSpawnPhase
  by_cases hfg : fg
  · by_cases hok : env.fgOk <;> simp [hfg, hok, hnone]
  · by_cases hsp : env.spawnOk
    · by_cases hex : env.childExitedEarly
      · simp only [if_neg hfg, if_pos hsp, if_pos hex]
        exact Or.inl (lookupKey_unlink_self _ _)
      · simp only [if_neg hfg, if_pos hsp, if_neg hex]
        exact Or.inr (lookupKey_write_self _ _ _)
    · simp only [if_neg hfg, if_neg hsp, existsKey, hnone, Option.isSome_none,
        Bool.false_eq_true, if_false]
      exact Or.inl trivial

theorem status_viewers_running (running : Int → Bool) (d : Dir) :
    ∀ e ∈ (status_server running d).1, running e.1 = true := by
  intro e he
  rw [status_server_viewers] at he
  obtain ⟨r, _, hle⟩ := List.mem_filterMap.mp he
  cases hp : readPid r.content with
  | none => simp [liveEntry, hp] at hle
  | some pid =>
    simp only [liveEntry, hp] at hle
    by_cases hrun : is_process_running running pid = true
    · rw [if_pos hrun] at hle
      obtain rfl := Option.some_inj.mp hle
      exact hrun
    · rw [if_neg hrun] at hle; cases hle

/-! ### Claim C2: stale-record cleanup on every read path -/

/-- Claim C2: a record whose content is malformed or whose PID is not
running is deleted by the operation that reads it and is never reported as
live: `status_server` removes its file and returns only entries of running
PIDs; `launch_server`, on finding such a record at the chosen port's path,
leaves that path either absent or overwritten by the freshly spawned
child's record; `kill_server` (all-targets form) deletes every record file
it reads. -/
theorem C2_stale_cleanup :
    (∀ (running : Int → Bool) (d : Dir), keysNodup d →
      ∀ r ∈ d, isLiveRecord running r = false →
        lookupKey (status_server running d).2 r.key = none ∧
        ∀ e ∈ (status_server running d).1, running e.1 = true) ∧
    (∀ (env : LaunchEnv) (d : Dir) (port actual : Nat) (fg : Bool) (c : String),
      find_available_port env.bindOk port 100 = some actual →
      lookupKey d (natRepr actual) = some c →
      isStaleContent env.running c = true →
      lookupKey (launch_server env d port fg).dir (natRepr actual) = none ∨
      lookupKey (launch_server env d port fg).dir (natRepr actual) =
        some (intRepr env.childPid)) ∧
    (∀ (env : KillEnv) (d : Dir) (ka : Bool), keysNodup d →
      ∀ r ∈ d, lookupKey (kill_server env d none ka).dir r.key = none) := by
  refine ⟨?_, ?_, ?_⟩
  · intro running d h r hr hstale
    refine ⟨?_, status_viewers_running running d⟩
    rw [status_server_dir running d h]
    exact lookupKey_filter_none h hr hstale
  · intro env d port actual fg c hfind hc hstale
    cases hp : readPid c with
    | none =>
      have heq : launch_server env d port fg =
          launchSpawnPhase env (unlinkKey d (natRepr actual)) actual fg := by
        unfold launch_server
        rw [hfind]
        simp only [hc, hp]
      rw [heq]
      exact launchSpawnPhase_lookup_self env _ actual fg (lookupKey_unlink_self d _)
    | some pid =>
      have hrun : is_process_running env.running pid = false := by
        simp only [isStaleContent, hp] at hstale
        simpa using hstale
      have heq : launch_server env d port fg =
          launchSpawnPhase env (unlinkKey d (natRepr actual)) actual fg := by
        unfold launch_server
        rw [hfind]
        simp only [hc, hp, hrun, Bool.false_eq_true, if_false]
      rw [heq]
      exact launchSpawnPhase_lookup_self env _ actual fg (lookupKey_unlink_self d _)
  · intro env d ka h r _
    rw [kill_server_none env d ka h]
    rfl

/-- Witness for C2 at concrete inputs: a record whose PID 77 is not running
is deleted by `status`; `launch` on a directory whose port-4444 record is
stale leaves that path absent or holding the new child's PID; `kill`
removes the file of a record it reads. -/
theorem C2_witness :
    lookupKey (status_server (fun _ => false) [⟨"4444", "77"⟩]).2 "4444" = none ∧
    (lookupKey (launch_server ⟨fun _ => true, fun _ => false, true, 99, false, true⟩
        [⟨"4444", "77"⟩] 4444 false).dir (natRepr 4444) = none ∨
     lookupKey (launch_server ⟨fun _ => true, fun _ => false, true, 99, false, true⟩
        [⟨"4444", "77"⟩] 4444 false).dir (natRepr 4444) = some (intRepr 99)) ∧
    lookupKey (kill_server ⟨fun _ => .ok, fun _ => false, fun _ => .ok⟩
        [⟨"4444", "77"⟩] none false).dir "4444" = none := by
  refine ⟨?_, ?_, ?_⟩
  · exact (C2_stale_cleanup.1 (fun _ => false) [⟨"4444", "77"⟩] (by decide)
      ⟨"4444", "77"⟩ (by decide) (by decide)).1
  · exact C2_stale_cleanup.2.1 ⟨fun _ => true, fun _ => false, true, 99, false, true⟩
      [⟨"4444", "77"⟩] 4444 4444 false "77" (by decide) (by decide) (by decide)
  · exact C2_stale_cleanup.2.2 ⟨fun _ => .ok, fun _ => false, fun _ => .ok⟩
      [⟨"4444", "77"⟩] false (by decide) ⟨"4444", "77"⟩ (by decide)

/-! ### Claim C3: status tolerance of concurrent modification -/

theorem lookupKey_isSome_of_mem_keys (d : Dir) (k : String)
    (h : k ∈ d.map (·.key)) : (lookupKey d k).isSome = true := by
  induction d with
  | nil => simp at h
  | cons r rest ih =>
    rw [List.map_cons, List.mem_cons] at h
    rcases h with h | h
    · simp [lookupKey, h.symm]
    · by_cases hk : r.key = k <;> simp [lookupKey, hk, ih h]

theorem statusScanF_ok_of_all (running : Int → Bool) (d : Dir) :
    ∀ keys, (∀ k ∈ keys, (lookupKey d k).isSome = true) →
      ∃ out, statusScanF running d keys = .ok out := by
  intro keys
  induction keys with
  | nil => intro _; exact ⟨([], []), rfl⟩
  | cons k rest ih =>
    intro h
    obtain ⟨c, hc⟩ := Option.isSome_iff_exists.mp (h k (List.mem_cons_self k rest))
    obtain ⟨out, hout⟩ := ih (fun k2 hk2 => h k2 (List.mem_cons_of_mem k hk2))
    obtain ⟨vs, st⟩ := out
    cases hp : readPid c with
    | some pid =>
      by_cases hr : is_process_running running pid = true
      · exact ⟨((pid, portOfKey k) :: vs, st), by
          simp [statusScanF, hc, hout, hp, hr]⟩
      · exact ⟨(vs, k :: st), by simp [statusScanF, hc, hout, hp, hr]⟩
    | none => exact ⟨(vs, k :: st), by simp [statusScanF, hc, hout, hp]⟩

/-- Claim C3 evaluation: the sequential part of the claim holds — a scan of
a consistent snapshot always completes (`.ok`), for every directory state,
and the CLI then exits 0 — but a record file that is enumerated by `glob`
and removed (or made unreadable) before `read_text` runs raises an
`OSError` that the `except ValueError` in `status_server` does not catch,
so the operation aborts instead of treating the condition as benign
(first conjunct, the failing input). -/
theorem C3_status_concurrent_crash :
    statusScanF (fun _ => true) [] ["4444"] = .error () ∧
    (∀ (running : Int → Bool) (d : Dir),
      ∃ out, statusScanF running d (d.map (·.key)) = .ok out) ∧
    (∀ viewers : List (Int × String), cliStatusExit viewers = 0) := by
  refine ⟨rfl, ?_, fun _ => rfl⟩
  intro running d
  exact statusScanF_ok_of_all running d (d.map (·.key))
    (fun k hk => lookupKey_isSome_of_mem_keys d k hk)

/-! ### Claim C7: what record contents parse -/

theorem isDigit_beq_underscore {c : Char} (h : c.isDigit = true) :
    (c == '_') = false := by
  rw [beq_eq_false_iff_ne]
  intro he
  subst he
  exact absurd h (by decide)

theorem validRest_cons_digit (c : Char) (l : List Char) (hd : c.isDigit = true) :
    validRest (c :: l) = validRest l := by
  have hu := isDigit_beq_underscore hd
  cases l with
  | nil => simp [validRest, noDoubleUnderscore, hd, hu]
  | cons x xs =>
    simp only [validRest, noDoubleUnderscore, List.all_cons, hd, hu,
      Bool.true_or, Bool.true_and, Bool.false_and, Bool.not_false,
      List.getLast?_cons_cons]

theorem validRest_cons_other (c : Char) (l : List Char)
    (hd : c.isDigit = false) (hu : (c == '_') = false) :
    validRest (c :: l) = false := by
  simp [validRest, hd, hu]

theorem validRest_underscore_digit (c2 : Char) (rest : List Char)
    (hd2 : c2.isDigit = true) :
    validRest ('_' :: c2 :: rest) = validRest (c2 :: rest) := by
  have hu2 := isDigit_beq_underscore hd2
  simp [validRest, noDoubleUnderscore, hd2, hu2, List.getLast?_cons_cons]

theorem validRest_underscore_underscore (rest : List Char) :
    validRest ('_' :: '_' :: rest) = false := by
  simp [validRest, noDoubleUnderscore]

theorem validRest_underscore_other (c2 : Char) (rest : List Char)
    (hd2 : c2.isDigit = false) (hu2 : (c2 == '_') = false) :
    validRest ('_' :: c2 :: rest) = false := by
  simp [validRest, noDoubleUnderscore, hd2, hu2]

theorem digitsRest_isSome : ∀ (l : List Char), (digitsRest l).isSome = validRest l
  | [] => by decide
  | [c] => by
    by_cases hu : c = '_'
    · subst hu; decide
    · by_cases hd : c.isDigit
      · rw [digitsRest, if_neg hu, if_pos hd]
        rw [validRest_cons_digit c [] hd]
        rfl
      · rw [digitsRest, if_neg hu, if_neg hd]
        rw [validRest_cons_other c [] (Bool.eq_false_iff.mpr hd)
          (beq_eq_false_iff_ne.mpr hu)]
        rfl
  | c :: c2 :: rest => by
    by_cases hu : c = '_'
    · subst hu
      rw [digitsRest, if_pos rfl]
      by_cases hd2 : c2.isDigit
      · rw [if_pos hd2, validRest_underscore_digit c2 rest hd2,
          validRest_cons_digit c2 rest hd2, ← digitsRest_isSome rest]
        cases digitsRest rest <;> rfl
      · by_cases hu2 : c2 = '_'
        · subst hu2
          rw [if_neg hd2, validRest_underscore_underscore rest]
          rfl
        · rw [if_neg hd2, validRest_underscore_other c2 rest
            (Bool.eq_false_iff.mpr hd2) (beq_eq_false_iff_ne.mpr hu2)]
          rfl
    · by_cases hd : c.isDigit
      · rw [digitsRest, if_neg hu, if_pos hd, validRest_cons_digit c (c2 :: rest) hd,
          ← digitsRest_isSome (c2 :: rest)]
        cases digitsRest (c2 :: rest) <;> rfl
      · rw [digitsRest, if_neg hu, if_neg hd, validRest_cons_other c (c2 :: rest)
          (Bool.eq_false_iff.mpr hd) (beq_eq_false_iff_ne.mpr hu)]
        rfl

theorem validDigitPart_cons (c : Char) (rest : List Char) (hd : c.isDigit = true) :
    validDigitPart (c :: rest) = validRest rest := by
  have hu := isDigit_beq_underscore hd
  cases rest with
  | nil => simp [validDigitPart, validRest, noDoubleUnderscore, hd, hu]
  | cons x xs =>
    obtain ⟨y, hy⟩ : ∃ y, (x :: xs).getLast? = some y := by
      cases h : (x :: xs).getLast? with
      | none => exact absurd (List.getLast?_eq_none_iff.mp h) (by simp)
      | some y => exact ⟨y, rfl⟩
    have hnd : noDoubleUnderscore (c :: x :: xs) = noDoubleUnderscore (x :: xs) := by
      simp [noDoubleUnderscore, hu]
    simp only [validDigitPart, validRest, List.isEmpty_cons, Bool.not_false,
      List.all_cons, hd, hu, Bool.true_or, Bool.true_and, List.head?_cons,
      List.getLast?_cons_cons, hnd, hy]
    cases hxa : (x.isDigit || x == '_') <;>
      cases hall : xs.all (fun c => c.isDigit || c == '_') <;>
        cases hn2 : noDoubleUnderscore (x :: xs) <;>
          cases hyd : y.isDigit <;> simp [hxa, hall, hn2, hyd]

theorem parseDigitPart_isSome : ∀ (l : List Char),
    (parseDigitPart l).isSome = validDigitPart l
  | [] => by decide
  | c :: rest => by
    by_cases hd : c.isDigit
    · rw [parseDigitPart, if_pos hd, validDigitPart_cons c rest hd,
        ← digitsRest_isSome rest]
      cases digitsRest rest <;> rfl
    · rw [parseDigitPart, if_neg hd]
      simp [validDigitPart, Bool.eq_false_iff.mpr hd]

theorem pyParseIntList_isSome (l : List Char) :
    (pyParseIntList l).isSome = validPyIntTxt l := by
  cases l with
  | nil => rfl
  | cons c rest =>
    by_cases hp : c = '+'
    · rw [pyParseIntList, validPyIntTxt, if_pos hp, if_pos hp, ← parseDigitPart_isSome]
      cases parseDigitPart rest <;> rfl
    · by_cases hm : c = '-'
      · rw [pyParseIntList, validPyIntTxt, if_neg hp, if_neg hp, if_pos hm, if_pos hm,
          ← parseDigitPart_isSome]
        cases parseDigitPart rest <;> rfl
      · rw [pyParseIntList, validPyIntTxt, if_neg hp, if_neg hp, if_neg hm, if_neg hm,
          ← parseDigitPart_isSome]
        cases parseDigitPart (c :: rest) <;> rfl

/-- Counterexample to claim C7 as stated: the record content `"-1"` is not a
valid non-negative integer, yet Python's `int(...)` parses it (to `-1`), so
reading does not report "malformed" exactly on non-non-negative-integer
contents. -/
theorem C7_counterexample :
    readPid "-1" = some (-1) ∧ isNonNegDecimal (pyStrip "-1") = false := by
  exact ⟨rfl, rfl⟩

/-- Claim C7 (amended): reading an instance record yields a parsed PID
exactly when the stripped content is a valid Python integer literal (ASCII
subset): an optional `'+'` or `'-'` sign followed by a nonempty digit
sequence in which single underscores may occur between digits.  In
particular negative contents such as `"-1"` parse successfully, so
"non-negative" does not hold; every other content is malformed and the
caller deletes the file. -/
theorem C7_readPid_parses_iff (s : String) :
    (readPid s).isSome = validPyIntTxt (pyStrip s).data := by
  unfold readPid pyParseIntStr
  exact pyParseIntList_isSome (pyStrip s).data

/-! ### Claim C4: launch against an existing record -/

theorem launchSpawnPhase_spawned (env : LaunchEnv) (d2 : Dir) (actual : Nat)
    (fg : Bool) (h : fg = true ∨ env.spawnOk = true) :
    (launchSpawnPhase env d2 actual fg).spawned = true := by
  unfold launchSpawnPhase
  by_cases hfg : fg
  · by_cases hok : env.fgOk <;> simp [hfg, hok]
  · have hsp : env.spawnOk = true := by
      rcases h with h | h
      · exact absurd h hfg
      · exact h
    by_cases hex : env.childExitedEarly <;> simp [hfg, hsp, hex]

theorem launch_reaches_spawn (env : LaunchEnv) (d : Dir) (port actual : Nat)
    (fg : Bool) (hfind : find_available_port env.bindOk port 100 = some actual)
    (hclear : clearPathB env.running d (natRepr actual) = true) :
    ∃ d2 : Dir, (d2 = d ∨ d2 = unlinkKey d (natRepr actual)) ∧
      lookupKey d2 (natRepr actual) = none ∧
      launch_server env d port fg = launchSpawnPhase env d2 actual fg := by
  cases hc : lookupKey d (natRepr actual) with
  | none =>
    refine ⟨d, Or.inl rfl, hc, ?_⟩
    unfold launch_server
    rw [hfind]
    simp only [hc]
  | some c =>
    have hstale : isStaleContent env.running c = true := by
      simp only [clearPathB, hc] at hclear
      exact hclear
    refine ⟨unlinkKey d (natRepr actual), Or.inr rfl, lookupKey_unlink_self d _, ?_⟩
    cases hp : readPid c with
    | none =>
      unfold launch_server
      rw [hfind]
      simp only [hc, hp]
    | some pid =>
      have hrun : is_process_running env.running pid = false := by
        simp only [isStaleContent, hp] at hstale
        simpa using hstale
      unfold launch_server
      rw [hfind]
      simp only [hc, hp, hrun, Bool.false_eq_true, if_false]

/-- Counterexample to claim C4 as stated: a second sequential launch on the
same directory and requested port.  After the first launch, the first
server (PID 4321, running) holds port 4444, so the second launch's bind
probe fails there and `find_available_port` chooses 4445; the record check
looks only at the chosen port's path `fileserver.4445.pid`, so the existing
record `fileserver.4444.pid` with its running PID is never read.  The
second launch does NOT abort with "already running": it spawns a second
child, writes a second record file (two record files persist, not exactly
one), and the CLI exits 0, not 1. -/
theorem C4_counterexample :
    (launch_server ⟨fun p => p != 4444, fun _ => true, true, 4322, false, true⟩
        [⟨"4444", "4321"⟩] 4444 false).result = some (4445, some 4322) ∧
    (launch_server ⟨fun p => p != 4444, fun _ => true, true, 4322, false, true⟩
        [⟨"4444", "4321"⟩] 4444 false).spawned = true ∧
    (launch_server ⟨fun p => p != 4444, fun _ => true, true, 4322, false, true⟩
        [⟨"4444", "4321"⟩] 4444 false).dir =
      [⟨"4444", "4321"⟩, ⟨"4445", "4322"⟩] ∧
    cliLaunchExit (launch_server ⟨fun p => p != 4444, fun _ => true, true, 4322, false, true⟩
        [⟨"4444", "4321"⟩] 4444 false).result = 0 := by
  exact ⟨by decide, by decide, by decide, by decide⟩

/-- Claim C4 (amended): the record check applies to the CHOSEN port's path —
the port returned by `find_available_port`, which can differ from the
requested one because the port is allocated before the record check.  When
a record file exists at the chosen port's path: a running recorded PID
makes `launch_server` abort with no child spawned, an unchanged directory
and CLI exit status 1; a stale or malformed record is deleted and the
launch proceeds to spawn (the path ends absent or holding the fresh
child's record).  A second sequential launch on the same directory and
requested port, however, finds the requested port held by the first server,
auto-increments past it without reading the first record, and spawns a
duplicate with a second record file and exit 0 (the counterexample). -/
theorem C4_launch_existing_record (env : LaunchEnv) (d : Dir) (port actual : Nat)
    (fg : Bool) (hfind : find_available_port env.bindOk port 100 = some actual) :
    (∀ c pid, lookupKey d (natRepr actual) = some c → readPid c = some pid →
      env.running pid = true →
      launch_server env d port fg = ⟨none, d, false⟩ ∧
      cliLaunchExit (launch_server env d port fg).result = 1) ∧
    (∀ c, lookupKey d (natRepr actual) = some c →
      isStaleContent env.running c = true →
      (fg = true ∨ env.spawnOk = true) →
      (launch_server env d port fg).spawned = true ∧
      (lookupKey (launch_server env d port fg).dir (natRepr actual) = none ∨
       lookupKey (launch_server env d port fg).dir (natRepr actual) =
         some (intRepr env.childPid))) := by
  constructor
  · intro c pid hc hp hrun
    have heq : launch_server env d port fg = ⟨none, d, false⟩ := by
      unfold launch_server
      rw [hfind]
      simp only [hc, hp, is_process_running, hrun, if_true]
    exact ⟨heq, by rw [heq]; rfl⟩
  · intro c hc hstale hsp
    obtain ⟨d2, _, hnone, heq⟩ := launch_reaches_spawn env d port actual fg hfind
      (by simp only [clearPathB, hc]; exact hstale)
    rw [heq]
    exact ⟨launchSpawnPhase_spawned env d2 actual fg hsp,
      launchSpawnPhase_lookup_self env d2 actual fg hnone⟩

/-- Witness for C4 (amended) at concrete inputs: with a record at the chosen
port's path (here the requested port binds, so chosen = 4444) holding
running PID 5, launch aborts with no spawn, unchanged directory and exit 1;
with the same record stale (PID 5 not running), launch spawns and the old
record is gone. -/
theorem C4_witness :
    (launch_server ⟨fun _ => true, fun pid => pid == 5, true, 99, false, true⟩
        [⟨"4444", "5"⟩] 4444 false = ⟨none, [⟨"4444", "5"⟩], false⟩ ∧
      cliLaunchExit (launch_server ⟨fun _ => true, fun pid => pid == 5, true, 99, false, true⟩
        [⟨"4444", "5"⟩] 4444 false).result = 1) ∧
    ((launch_server ⟨fun _ => true, fun _ => false, true, 99, false, true⟩
        [⟨"4444", "5"⟩] 4444 false).spawned = true ∧
      (lookupKey (launch_server ⟨fun _ => true, fun _ => false, true, 99, false, true⟩
          [⟨"4444", "5"⟩] 4444 false).dir (natRepr 4444) = none ∨
       lookupKey (launch_server ⟨fun _ => true, fun _ => false, true, 99, false, true⟩
          [⟨"4444", "5"⟩] 4444 false).dir (natRepr 4444) = some (intRepr 99))) := by
  constructor
  · exact (C4_launch_existing_record
      ⟨fun _ => true, fun pid => pid == 5, true, 99, false, true⟩
      [⟨"4444", "5"⟩] 4444 4444 false (by decide)).1 "5" 5 (by decide) (by decide)
      (by decide)
  · exact (C4_launch_existing_record
      ⟨fun _ => true, fun _ => false, true, 99, false, true⟩
      [⟨"4444", "5"⟩] 4444 4444 false (by decide)).2 "5" (by decide) (by decide)
      (Or.inr rfl)

/-! ### Claim C5: background rollback and no partial record -/

theorem launchSpawnPhase_no_new (env : LaunchEnv) (d0 d2 : Dir) (actual : Nat)
    (fg : Bool)
    (hbase : ∀ k, lookupKey d2 k = lookupKey d0 k ∨ lookupKey d2 k = none)
    (hres : (launchSpawnPhase env d2 actual fg).result = none) :
    ∀ k, lookupKey (launchSpawnPhase env d2 actual fg).dir k = lookupKey d0 k ∨
         lookupKey (launchSpawnPhase env d2 actual fg).dir k = none := by
  unfold launchSpawnPhase at hres ⊢
  by_cases hfg : fg
  · intro k
    by_cases hok : env.fgOk
    · simpa only [if_pos hfg, if_pos hok] using hbase k
    · simpa only [if_pos hfg, if_neg hok] using hbase k
  · by_cases hsp : env.spawnOk
    · by_cases hex : env.childExitedEarly
      · simp only [if_neg hfg, if_pos hsp, if_pos hex]
        intro k
        by_cases hk : k = natRepr actual
        · subst hk
          exact Or.inr (lookupKey_unlink_self _ _)
        · rw [lookupKey_unlink_ne _ hk, lookupKey_write_ne _ hk]
          exact hbase k
      · simp [if_neg hfg, if_pos hsp, if_neg hex] at hres
    · simp only [if_neg hfg, if_neg hsp]
      intro k
      by_cases hex2 : existsKey d2 (natRepr actual) = true
      · simp only [hex2, if_true]
        by_cases hk : k = natRepr actual
        · subst hk
          exact Or.inr (lookupKey_unlink_self _ _)
        · rw [lookupKey_unlink_ne _ hk]
          exact hbase k
      · rw [if_neg hex2]
        exact hbase k

/-- Claim C5: in background mode the record is written right after the
spawn and rolled back when the single post-grace re-check finds the child
already exited — launch then returns failure and the chosen port's record
file is gone; and on every failing background launch, no record written by
the launch survives (every key of the final directory is unchanged from the
initial directory or absent). -/
theorem C5_launch_rollback (env : LaunchEnv) (d : Dir) (port : Nat) :
    (∀ actual, find_available_port env.bindOk port 100 = some actual →
      clearPathB env.running d (natRepr actual) = true →
      env.spawnOk = true → env.childExitedEarly = true →
      (launch_server env d port false).result = none ∧
      lookupKey (launch_server env d port false).dir (natRepr actual) = none) ∧
    ((launch_server env d port false).result = none →
      ∀ k, lookupKey (launch_server env d port false).dir k = lookupKey d k ∨
           lookupKey (launch_server env d port false).dir k = none) := by
  constructor
  · intro actual hfind hclear hspawn hexit
    obtain ⟨d2, _, _, heq⟩ := launch_reaches_spawn env d port actual false hfind hclear
    have heq2 : launchSpawnPhase env d2 actual false =
        ⟨none, unlinkKey (writeKey d2 (natRepr actual) (intRepr env.childPid))
          (natRepr actual), true⟩ := by
      unfold launchSpawnPhase
      simp [hspawn, hexit]
    rw [heq, heq2]
    exact ⟨rfl, lookupKey_unlink_self _ _⟩
  · intro hres
    cases hfind : find_available_port env.bindOk port 100 with
    | none =>
      have heq : launch_server env d port false = ⟨none, d, false⟩ := by
        unfold launch_server
        rw [hfind]
      rw [heq]
      exact fun k => Or.inl rfl
    | some actual =>
      cases hc : lookupKey d (natRepr actual) with
      | none =>
        have heq : launch_server env d port false =
            launchSpawnPhase env d actual false := by
          unfold launch_server
          rw [hfind]
          simp only [hc]
        rw [heq] at hres ⊢
        exact launchSpawnPhase_no_new env d d actual false
          (fun k => Or.inl rfl) hres
      | some c =>
        cases hp : readPid c with
        | none =>
          have heq : launch_server env d port false =
              launchSpawnPhase env (unlinkKey d (natRepr actual)) actual false := by
            unfold launch_server
            rw [hfind]
            simp only [hc, hp]
          rw [heq] at hres ⊢
          refine launchSpawnPhase_no_new env d _ actual false (fun k => ?_) hres
          by_cases hk : k = natRepr actual
          · subst hk
            exact Or.inr (lookupKey_unlink_self _ _)
          · exact Or.inl (lookupKey_unlink_ne _ hk)
        | some pid =>
          by_cases hrun : is_process_running env.running pid = true
          · have heq : launch_server env d port false = ⟨none, d, false⟩ := by
              unfold launch_server
              rw [hfind]
              simp only [hc, hp, hrun, if_true]
            rw [heq]
            exact fun k => Or.inl rfl
          · have heq : launch_server env d port false =
                launchSpawnPhase env (unlinkKey d (natRepr actual)) actual false := by
              unfold launch_server
              rw [hfind]
              simp only [hc, hp, if_neg hrun]
            rw [heq] at hres ⊢
            refine launchSpawnPhase_no_new env d _ actual false (fun k => ?_) hres
            by_cases hk : k = natRepr actual
            · subst hk
              exact Or.inr (lookupKey_unlink_self _ _)
            · exact Or.inl (lookupKey_unlink_ne _ hk)

/-- Witness for C5 at a concrete environment whose child exits during the
grace period: the launch on an empty directory fails and leaves no record
at the chosen port, and every key is unchanged-or-absent. -/
theorem C5_witness :
    ((launch_server ⟨fun _ => true, fun _ => true, true, 99, true, true⟩
        [] 4444 false).result = none ∧
      lookupKey (launch_server ⟨fun _ => true, fun _ => true, true, 99, true, true⟩
        [] 4444 false).dir (natRepr 4444) = none) ∧
    (lookupKey (launch_server ⟨fun _ => true, fun _ => true, true, 99, true, true⟩
        [] 4444 false).dir "4444" = lookupKey ([] : Dir) "4444" ∨
     lookupKey (launch_server ⟨fun _ => true, fun _ => true, true, 99, true, true⟩
        [] 4444 false).dir "4444" = none) := by
  have h := C5_launch_rollback ⟨fun _ => true, fun _ => true, true, 99, true, true⟩
    [] 4444
  have h1 := h.1 4444 (by decide) (by decide) rfl rfl
  exact ⟨h1, h.2 h1.1 "4444"⟩

/-! ### Claim C9: launch then status -/

/-- Claim C9: a successful background launch on a directory with no records
persists a record at the chosen port's path (here the requested port, which
binds), and an immediately following `status` — while the child is running —
reports exactly one live entry whose port string equals the launched port,
leaving the directory unchanged. -/
theorem C9_launch_then_status (env : LaunchEnv) (port : Nat)
    (hbind : env.bindOk port = true) (hspawn : env.spawnOk = true)
    (hlive : env.childExitedEarly = false)
    (hrun : env.running env.childPid = true) :
    (launch_server env [] port false).result = some (port, some env.childPid) ∧
    lookupKey (launch_server env [] port false).dir (natRepr port) =
      some (intRepr env.childPid) ∧
    (status_server env.running (launch_server env [] port false).dir).1 =
      [(env.childPid, natRepr port)] ∧
    (status_server env.running (launch_server env [] port false).dir).2 =
      (launch_server env [] port false).dir := by
  have hfind := find_available_port_start env.bindOk port hbind
  have heq : launch_server env [] port false =
      ⟨some (port, some env.childPid),
        [⟨natRepr port, intRepr env.childPid⟩], true⟩ := by
    unfold launch_server
    rw [hfind]
    unfold launchSpawnPhase
    simp [hspawn, hlive, writeKey, lookupKey]
  rw [heq]
  refine ⟨rfl, by simp [lookupKey], ?_, ?_⟩
  · simp [status_server, statusScan, readPid_intRepr, is_process_running, hrun,
      portOfKey_natRepr]
  · simp [status_server, statusScan, readPid_intRepr, is_process_running, hrun]

/-- Witness for C9 at a concrete environment: launching on port 4444 with
child PID 4321 and then running status reports exactly the entry
`(4321, "4444")`. -/
theorem C9_witness :
    (launch_server ⟨fun _ => true, fun _ => true, true, 4321, false, true⟩
        [] 4444 false).result = some (4444, some 4321) ∧
    lookupKey (launch_server ⟨fun _ => true, fun _ => true, true, 4321, false, true⟩
        [] 4444 false).dir (natRepr 4444) = some (intRepr 4321) ∧
    (status_server (fun _ => true)
        (launch_server ⟨fun _ => true, fun _ => true, true, 4321, false, true⟩
          [] 4444 false).dir).1 = [(4321, natRepr 4444)] ∧
    (status_server (fun _ => true)
        (launch_server ⟨fun _ => true, fun _ => true, true, 4321, false, true⟩
          [] 4444 false).dir).2 =
      (launch_server ⟨fun _ => true, fun _ => true, true, 4321, false, true⟩
        [] 4444 false).dir :=
  C9_launch_then_status ⟨fun _ => true, fun _ => true, true, 4321, false, true⟩
    4444 rfl rfl rfl rfl

end AigonViewer
